import Mathlib

set_option maxRecDepth 1000000

/-!
Verification of the AI-Chat speech/answer core.

This file gives a shallow embedding, in Lean, of the pieces of the
repository that the specification's claims talk about:

* `utils/speechCorrections.ts` : the correction pipeline
  (`TECHNICAL_CORRECTIONS`, `correctTechnicalTerms`,
  `postProcessTranscript`).  JavaScript strings are modelled as
  `List Char`; the `RegExp` substitutions used by the source are all of
  the shape "literal words with `\b` boundaries, global,
  case-insensitive", which is modelled by an explicit left-to-right
  scanner (`replaceWBAux`) that mirrors how a global regex replace walks
  the subject string.
* `hooks/useSpeechRecognition.ts` : the transcript reconciler, as a
  state machine over explicit recognition events (desktop full-replay
  and mobile index-cursor strategies), plus the mobile-restart variant
  of the hook and the set-based dedup variant kept in the repository.
* `services/geminiService.ts` and `services/aiProviderService.ts` : the
  retry/backoff loop and the provider router, modelled as pure functions
  from a backend behaviour (outcome of each attempt / HTTP response) to
  a trace recording attempts made, sleeps performed, chunks delivered
  and the final resolution or rejection.

Floating point confidences are modelled with `Rat`; the only comparison
the source performs is against the literal `0.2`, which is exact.
-/

/-! ## Character / string primitives (JS semantics, ASCII fragment) -/

/-- JS regex `\w` (word character): letter, digit or underscore. -/
def isWordChar (c : Char) : Bool := c.isAlpha || c.isDigit || c = '_'

/-- JS regex `\s` restricted to the whitespace characters that occur in
this code base. -/
def isSpaceChar (c : Char) : Bool := c = ' ' || c = '\t' || c = '\n' || c = '\r'

/-- Punctuation class `[,.!?]` used by `postProcessTranscript`. -/
def isPunctChar (c : Char) : Bool := c = ',' || c = '.' || c = '!' || c = '?'

/-- `String.prototype.toLowerCase` (ASCII). -/
def toLowerL (l : List Char) : List Char := l.map Char.toLower

/-- `String.prototype.trim`. -/
def trimL (l : List Char) : List Char :=
  ((l.dropWhile isSpaceChar).reverse.dropWhile isSpaceChar).reverse

/-- Case-insensitive "the subject starts with the pattern". -/
def startsWithCI : List Char → List Char → Bool
  | [], _ => true
  | _ :: _, [] => false
  | p :: ps, c :: cs => (p.toLower = c.toLower) && startsWithCI ps cs

/-- `\b` immediately after `n` consumed characters: the subject is
exhausted there or continues with a non-word character. -/
def boundaryAfterN (n : Nat) (s : List Char) : Bool :=
  match s.drop n with
  | [] => true
  | d :: _ => !isWordChar d

/-- Word-character status of the last of the first `n` characters of the
subject (the character just before the regex scan resumes). -/
def lastTakenIsWord (n : Nat) (s : List Char) : Bool :=
  match (s.take n).getLast? with
  | some d => isWordChar d
  | none => false

/-- A match of `/\bpat\b/i` anchored at the current position, where
`prevW` tells whether the character before the current position is a
word character. All patterns in this code base start and end with word
characters, so `\b` on the left means exactly `!prevW`. -/
def matchHere (pat : List Char) (prevW : Bool) (s : List Char) : Bool :=
  !prevW && startsWithCI pat s && boundaryAfterN pat.length s

/-- Global replace of `/\bpat\b/gi` by `repl`, scanning left to right
and resuming after each match, exactly as `String.prototype.replace`
with a global regex does. The `fuel` argument exists only to make the
recursion structural (each step consumes at least one subject
character, so `fuel = s.length` never runs out); it has no counterpart
in the source. -/
def replaceWBAux (pat repl : List Char) : Nat → Bool → List Char → List Char
  | 0, _, s => s
  | _ + 1, _, [] => []
  | fuel + 1, prevW, c :: cs =>
    if matchHere pat prevW (c :: cs) then
      repl ++ replaceWBAux pat repl fuel (lastTakenIsWord pat.length (c :: cs))
        (cs.drop (pat.length - 1))
    else
      c :: replaceWBAux pat repl fuel (isWordChar c) cs

/-- Entry point of the scanner: at the start of the string there is no
previous character. -/
def replaceWB (pat repl s : List Char) : List Char :=
  replaceWBAux pat repl s.length false s

/-- Global replace of an alternation `/\b(p₁|p₂|…)\b/gi`: at each
position the alternatives are tried in order (same fuel device). -/
def replaceAltAux (pats : List (List Char)) (repl : List Char) :
    Nat → Bool → List Char → List Char
  | 0, _, s => s
  | _ + 1, _, [] => []
  | fuel + 1, prevW, c :: cs =>
    match pats.find? (fun p => matchHere p prevW (c :: cs)) with
    | some p =>
      repl ++ replaceAltAux pats repl fuel (lastTakenIsWord p.length (c :: cs))
        (cs.drop (p.length - 1))
    | none => c :: replaceAltAux pats repl fuel (isWordChar c) cs

def replaceAlt (pats : List (List Char)) (repl s : List Char) : List Char :=
  replaceAltAux pats repl s.length false s

/-- `/\bpat\b/i.test`: is there a bounded match anywhere? -/
def hasMatchAux (pat : List Char) (prevW : Bool) (s : List Char) : Bool :=
  match s with
  | [] => false
  | c :: cs => matchHere pat prevW (c :: cs) || hasMatchAux pat (isWordChar c) cs

def testWB (pat s : List Char) : Bool := hasMatchAux pat false s

/-- `corrected.replace(/\s+/g, ' ')`: collapse every whitespace run to a
single space (same fuel device as `replaceWBAux`). -/
def collapseWSAux : Nat → List Char → List Char
  | 0, s => s
  | _ + 1, [] => []
  | fuel + 1, c :: cs =>
    if isSpaceChar c then ' ' :: collapseWSAux fuel (cs.dropWhile isSpaceChar)
    else c :: collapseWSAux fuel cs

def collapseWS (s : List Char) : List Char := collapseWSAux s.length s

/-- `corrected.charAt(0).toUpperCase() + corrected.slice(1)`. -/
def capitalizeFirst : List Char → List Char
  | [] => []
  | c :: cs => c.toUpper :: cs

/-! ## The correction pipeline (`utils/speechCorrections.ts`) -/

/-- `TECHNICAL_CORRECTIONS` as an ordered association list; JS object
literals with string keys enumerate in insertion order, which is the
order below. -/
def TECHNICAL_CORRECTIONS : List (String × String) := [
  ("care", "char"), ("chair", "char"), ("car", "char"), ("chore", "char"),
  ("int", "int"), ("integer", "int"), ("string", "string"), ("bool", "bool"),
  ("boolean", "bool"), ("float", "float"), ("double", "double"), ("void", "void"),
  ("byte", "byte"), ("short", "short"), ("long", "long"),
  ("array", "array"), ("arry", "array"), ("a ray", "array"),
  ("function", "function"), ("variable", "variable"), ("loop", "loop"),
  ("class", "class"), ("object", "object"), ("method", "method"),
  ("interface", "interface"), ("inheritance", "inheritance"),
  ("polymorphism", "polymorphism"), ("encapsulation", "encapsulation"),
  ("abstraction", "abstraction"), ("recursion", "recursion"),
  ("iteration", "iteration"),
  ("list", "list"), ("stack", "stack"), ("queue", "queue"), ("tree", "tree"),
  ("graph", "graph"), ("hash", "hash"), ("map", "map"), ("set", "set"),
  ("heap", "heap"), ("linked list", "linked list"),
  ("sorting", "sorting"), ("searching", "searching"),
  ("binary search", "binary search"), ("quick sort", "quicksort"),
  ("merge sort", "merge sort"), ("bubble sort", "bubble sort"),
  ("selection sort", "selection sort"), ("insertion sort", "insertion sort"),
  ("react", "React"), ("node", "Node.js"), ("javascript", "JavaScript"),
  ("typescript", "TypeScript"), ("python", "Python"), ("java", "Java"),
  ("c plus plus", "C++"), ("c sharp", "C#"), ("see sharp", "C#"),
  ("sql", "SQL"), ("sequel", "SQL"), ("html", "HTML"), ("css", "CSS"),
  ("api", "API"), ("a p i", "API"), ("rest", "REST"), ("json", "JSON"),
  ("jason", "JSON"), ("xml", "XML"),
  ("operating system", "operating system"), ("os", "OS"),
  ("database", "database"), ("db", "database"), ("server", "server"),
  ("client", "client"), ("network", "network"), ("protocol", "protocol"),
  ("http", "HTTP"), ("https", "HTTPS"), ("tcp", "TCP"), ("ip", "IP"),
  ("dns", "DNS"),
  ("algorithm", "algorithm"), ("data structure", "data structure"),
  ("time complexity", "time complexity"), ("space complexity", "space complexity"),
  ("big o", "Big O"), ("big oh", "Big O"), ("o of n", "O(n)"),
  ("design pattern", "design pattern"), ("microservice", "microservice"),
  ("docker", "Docker"), ("kubernetes", "Kubernetes"), ("aws", "AWS"),
  ("cloud", "cloud"),
  ("explain", "explain"), ("what is", "what is"), ("how does", "how does"),
  ("difference between", "difference between"), ("compare", "compare"),
  ("define", "define"), ("describe", "describe")]

/-- Anchored match of `data\s*type` with `\b` on both sides (one
alternative of the first context regex); `\s*` is greedy but `type`
starts with a non-space character, so greedy scanning is exact. -/
def matchDataTypeHere (prevW : Bool) (s : List Char) : Bool :=
  !prevW && startsWithCI "data".data s &&
    (let r := (s.drop 4).dropWhile isSpaceChar
     startsWithCI "type".data r && boundaryAfterN 4 r)

/-- The word alternatives of the first context regex in
`correctTechnicalTerms`, in source order (minus `data\s*type`,
handled by `matchDataTypeHere`). -/
def CONTEXT_WORDS_1 : List String :=
  ["int", "string", "bool", "float", "double", "void", "programming",
   "code", "variable", "function", "explain", "what", "difference",
   "between", "define", "describe", "datatype"]

/-- The word alternatives of the second context regex. -/
def CONTEXT_WORDS_2 : List String :=
  ["explain", "what", "difference", "between", "define", "describe"]

/-- `.test` of the first context regex: some alternative (a plain word
or `data\s*type`) matches somewhere with `\b` boundaries. -/
def hasCtx1Aux (prevW : Bool) (s : List Char) : Bool :=
  match s with
  | [] => false
  | c :: cs =>
    CONTEXT_WORDS_1.any (fun w => matchHere w.data prevW (c :: cs)) ||
    matchDataTypeHere prevW (c :: cs) ||
    hasCtx1Aux (isWordChar c) cs

/-- `.test` of the second context regex. -/
def hasCtx2Aux (prevW : Bool) (s : List Char) : Bool :=
  match s with
  | [] => false
  | c :: cs =>
    CONTEXT_WORDS_2.any (fun w => matchHere w.data prevW (c :: cs)) ||
    hasCtx2Aux (isWordChar c) cs

/-- `hasTechnicalContext` in `correctTechnicalTerms`: the disjunction of
the two context-regex tests. -/
def hasTechnicalContext (s : List Char) : Bool :=
  hasCtx1Aux false s || hasCtx2Aux false s

/-- The guard `/\b(care|chair|chore)\b/i.test(corrected)`. -/
def hasHomophone (s : List Char) : Bool :=
  testWB "care".data s || testWB "chair".data s || testWB "chore".data s

/-- `correctTechnicalTerms` from `utils/speechCorrections.ts`:
lowercase + trim, the ordered fold of word-bounded substitutions from
`TECHNICAL_CORRECTIONS`, the context-gated homophone pass, whitespace
collapsing, and first-letter capitalization. -/
def correctTechnicalTerms (text : String) : String :=
  if (trimL text.data).isEmpty then text
  else
    let c0 := trimL (toLowerL text.data)
    let c1 := TECHNICAL_CORRECTIONS.foldl
      (fun acc p => replaceWB p.1.data p.2.data acc) c0
    let c2 :=
      if hasHomophone c1 && hasTechnicalContext c1 then
        replaceAlt ["care".data, "chair".data, "chore".data] "char".data c1
      else c1
    let c3 := trimL (collapseWS c2)
    String.mk (capitalizeFirst c3)

/-- `processed.replace(/\s+([,.!?])/g, '$1')`: every whitespace run
immediately followed by punctuation is removed (each space belonging to
such a run is dropped). -/
def dropSpaceBeforePunct : List Char → List Char
  | [] => []
  | c :: cs =>
    if isSpaceChar c &&
        (match cs.dropWhile isSpaceChar with
         | d :: _ => isPunctChar d
         | [] => false) then
      dropSpaceBeforePunct cs
    else c :: dropSpaceBeforePunct cs

/-- `processed.replace(/([,.!?])([^\s])/g, '$1 $2')`: a punctuation
character directly followed by a non-space character gets a space
inserted; the scan resumes after the consumed pair. -/
def addSpaceAfterPunct : List Char → List Char
  | [] => []
  | [c] => [c]
  | c :: d :: ds =>
    if isPunctChar c && !isSpaceChar d then c :: ' ' :: d :: addSpaceAfterPunct ds
    else c :: addSpaceAfterPunct (d :: ds)

/-- Anchored match of `\bw1\s+w2\b` (case-insensitive); returns the
number of subject characters consumed. -/
def matchPhraseHere (w1 w2 : List Char) (prevW : Bool) (s : List Char) : Option Nat :=
  if prevW then none
  else if startsWithCI w1 s then
    let r := s.drop w1.length
    let sp := (r.takeWhile isSpaceChar).length
    if 0 < sp && startsWithCI w2 (r.drop sp) && boundaryAfterN w2.length (r.drop sp) then
      some (w1.length + sp + w2.length)
    else none
  else none

/-- Global replace of `/\bw1\s+w2\b/gi` by `repl` (same fuel device as
`replaceWBAux`). -/
def replacePhraseAux (w1 w2 repl : List Char) : Nat → Bool → List Char → List Char
  | 0, _, s => s
  | _ + 1, _, [] => []
  | fuel + 1, prevW, c :: cs =>
    match matchPhraseHere w1 w2 prevW (c :: cs) with
    | some n =>
      repl ++ replacePhraseAux w1 w2 repl fuel (lastTakenIsWord n (c :: cs))
        (cs.drop (n - 1))
    | none => c :: replacePhraseAux w1 w2 repl fuel (isWordChar c) cs

def replacePhrase (w1 w2 repl : String) (s : List Char) : List Char :=
  replacePhraseAux w1.data w2.data repl.data s.length false s

/-- `postProcessTranscript` from `utils/speechCorrections.ts`. -/
def postProcessTranscript (transcript : String) : String :=
  if (trimL transcript.data).isEmpty then transcript
  else
    let p0 := (correctTechnicalTerms transcript).data
    let p1 := addSpaceAfterPunct (dropSpaceBeforePunct p0)
    let p2 := replacePhrase "data" "type" "datatype" p1
    let p3 := replacePhrase "data" "structure" "data structure" p2
    let p4 := replacePhrase "time" "complexity" "time complexity" p3
    let p5 := replacePhrase "space" "complexity" "space complexity" p4
    String.mk (trimL p5)

/-! ## Resilient streaming client (`services/geminiService.ts`) -/

/-- Behaviour of one attempt of the streaming backend: either it
succeeds and yields chunks, or it throws an error carrying an optional
numeric `status` and an optional `message` (JS reads a missing message
as the string "Unknown error"). -/
inductive AttemptOutcome where
  | ok (chunks : List String)
  | err (status : Option Nat) (message : Option String)

/-- The observable trace of one `generateAnswerStream` call: how many
request attempts were made, which sleeps were performed (in order, in
milliseconds), and the final resolution (chunks delivered in order) or
rejection (error message). -/
structure StreamTrace where
  attempts : Nat
  sleeps : List Nat
  result : Except String (List String)
deriving Repr

def MAX_RETRIES : Nat := 3

def INITIAL_RETRY_DELAY_MS : Nat := 1000

def overloadedMsg : String :=
  "Gemini is temporarily overloaded. Please wait a moment and try again."

def rateLimitMsg : String :=
  "Gemini rate limit reached. Please slow down and try again shortly."

def genericFailMsg : String :=
  "Failed to generate answer from Gemini API after multiple attempts."

def geminiFallbackMsg : String :=
  "Failed to generate answer from Gemini API."

/-- `error.message` extraction: `"message" in error ? String(message) :
"Unknown error"`. -/
def jsMessage (m : Option String) : String := m.getD "Unknown error"

/-- The `while (attempt < MAX_RETRIES)` loop of `generateAnswerStream`.
`backend n` is the outcome of the `n`-th request (0-based); `attempt`
mirrors the JS counter (incremented inside `catch`). The `fuel`
argument only makes the recursion structural: every retry increments
`attempt`, which is bounded by `MAX_RETRIES`, so starting the loop with
`fuel = MAX_RETRIES` never exhausts it; when both the guard and the
fuel give out, the result is the fall-through generic error, matching
the statement after the loop. -/
def streamLoop (backend : Nat → AttemptOutcome) :
    Nat → Nat → List Nat → StreamTrace
  | 0, attempt, sleeps => ⟨attempt, sleeps, .error genericFailMsg⟩
  | fuel + 1, attempt, sleeps =>
    if attempt < MAX_RETRIES then
      match backend attempt with
      | .ok chunks => ⟨attempt + 1, sleeps, .ok chunks⟩
      | .err status msg =>
        let a := attempt + 1
        if (status = some 503 ∨ status = some 429) ∧ a < MAX_RETRIES then
          streamLoop backend fuel a
            (sleeps ++ [INITIAL_RETRY_DELAY_MS * 2 ^ (a - 1)])
        else if status = some 503 then ⟨a, sleeps, .error overloadedMsg⟩
        else if status = some 429 then ⟨a, sleeps, .error rateLimitMsg⟩
        else ⟨a, sleeps,
          .error (if jsMessage msg = "" then geminiFallbackMsg else jsMessage msg)⟩
    else ⟨attempt, sleeps, .error genericFailMsg⟩

/-- `generateAnswerStream`: the client is resolved before the retry loop
(`getGeminiClient`): an explicit caller key wins, otherwise the
environment default key, otherwise the call rejects with the
configuration error before any attempt is made. Question enhancement is
a pure string transform that does not affect the trace and is omitted
here. -/
def generateAnswerStream (backend : Nat → AttemptOutcome)
    (apiKey defaultKey : Option String) : StreamTrace :=
  match apiKey, defaultKey with
  | some _, _ => streamLoop backend MAX_RETRIES 0 []
  | none, some _ => streamLoop backend MAX_RETRIES 0 []
  | none, none =>
    ⟨0, [], .error "Gemini API key not configured. Please provide a valid key."⟩

/-! ## Provider router (`services/aiProviderService.ts`) -/

/-- The parsed HTTP response of the non-streaming backends: `ok`
status, raw error body, and the single parsed content field
(`choices[0].message.content` for OpenAI, `content[0].text` for
Claude); `none` models an absent field. -/
structure HttpResp where
  ok : Bool
  errorText : String
  content : Option String

/-- JS truthiness of the optional content field: present and non-empty. -/
def truthyContent : Option String → Bool
  | some s => s ≠ ""
  | none => false

/-- `generateOpenAIAnswer`: result paired with whether a network request
was issued. The chunk list records every `onChunk` invocation in order. -/
def generateOpenAIAnswer (apiKey : Option String) (resp : HttpResp) :
    Except String (List String) × Bool :=
  match apiKey with
  | none => (.error "Please provide an OpenAI API key.", false)
  | some _ =>
    if !resp.ok then (.error ("OpenAI error: " ++ resp.errorText), true)
    else if truthyContent resp.content then (.ok [resp.content.getD ""], true)
    else (.error "OpenAI returned an empty response.", true)

/-- `generateClaudeAnswer`: same shape as the OpenAI backend. -/
def generateClaudeAnswer (apiKey : Option String) (resp : HttpResp) :
    Except String (List String) × Bool :=
  match apiKey with
  | none => (.error "Please provide an Anthropic (Claude) API key.", false)
  | some _ =>
    if !resp.ok then (.error ("Claude error: " ++ resp.errorText), true)
    else if truthyContent resp.content then (.ok [resp.content.getD ""], true)
    else (.error "Claude returned an empty response.", true)

/-- Result of `generateAnswerWithProvider`: either the Gemini streaming
path ran (with its trace), or a non-streaming HTTP backend ran (result
plus whether the network was reached), or the switch itself threw
before calling any backend. -/
inductive RouteResult where
  | geminiCall (trace : StreamTrace)
  | httpCall (res : Except String (List String)) (networkCalled : Bool)
  | immediateError (msg : String)
deriving Repr

/-- `generateAnswerWithProvider`: `options.provider || 'default'`, then
the `switch`. The `default` arm (and the fallback arm) call the Gemini
backend with NO caller key; the `gemini` arm demands a caller key and
throws in the switch when it is absent; `openai`/`claude` delegate to
their backends (which fail fast without a key). -/
def generateAnswerWithProvider (provider : Option String)
    (apiKey defaultKey : Option String) (backend : Nat → AttemptOutcome)
    (resp : HttpResp) : RouteResult :=
  let p := provider.getD "default"
  if p = "default" then .geminiCall (generateAnswerStream backend none defaultKey)
  else if p = "gemini" then
    match apiKey with
    | none => .immediateError "Please provide a Gemini API key."
    | some k => .geminiCall (generateAnswerStream backend (some k) defaultKey)
  else if p = "openai" then
    let r := generateOpenAIAnswer apiKey resp
    .httpCall r.1 r.2
  else if p = "claude" then
    let r := generateClaudeAnswer apiKey resp
    .httpCall r.1 r.2
  else .geminiCall (generateAnswerStream backend none defaultKey)

/-! ## Recognition events (shared by the hook variants) -/

/-- One alternative hypothesis of a result slot: text plus confidence
(the source compares it only against the literal `0.2`, so `Rat` is an
exact model of the float). -/
structure Hypothesis where
  transcript : String
  confidence : Rat

/-- One slot of `event.results`: final/interim flag plus the ordered
alternatives (`result[j]`; `result.length` is the alternative count). -/
structure ResultSlot where
  isFinal : Bool
  alts : List Hypothesis

/-- `String.prototype.trim` on `String`. -/
def trimS (s : String) : String := String.mk (trimL s.data)

/-- `array.join(' ')`. -/
def joinSp (parts : List String) : String := String.intercalate " " parts

/-- Strict `>` on `Rat` through the executable comparison `Rat.blt`
(the kernel-computable definition of the order on `Rat`). -/
def ratGt (a b : Rat) : Bool := Rat.blt b a

/-- The `for (let j = 0; j < result.length; j++)` best-alternative scan:
a later alternative replaces the current best only with strictly larger
confidence, and an empty trimmed text keeps the previous best text. -/
def bestScan (alts : List Hypothesis) (t0 : String) (c0 : Rat) : String × Rat :=
  alts.foldl
    (fun b a =>
      if ratGt a.confidence b.2 then
        ((if trimS a.transcript = "" then b.1 else trimS a.transcript), a.confidence)
      else b)
    (t0, c0)

/-- Which text a final slot contributes (given the already extracted
`t0 = result[0].transcript.trim()`, known non-empty, and
`c0 = result[0].confidence`): the best alternative when its confidence
clears `0.2` or the slot has a single alternative, otherwise the
low-confidence `t0` fallback. `none` can only arise from an empty best
text, which the initialisation makes impossible; the branch is kept to
mirror the source. -/
def chooseFinal (slot : ResultSlot) (t0 : String) (c0 : Rat) : Option String :=
  let bc := if slot.alts.length > 1 then bestScan slot.alts t0 c0 else (t0, c0)
  if ratGt bc.2 (mkRat 1 5) ∨ slot.alts.length = 1 then
    if bc.1 ≠ "" then some bc.1 else none
  else some t0

/-- `result[0].transcript.trim() or ''` and `result[0].confidence or 0`. -/
def slotHead (slot : ResultSlot) : String × Rat :=
  match slot.alts.head? with
  | some a => (trimS a.transcript, a.confidence)
  | none => ("", 0)

/-! ## The reconciler hook (`hooks/useSpeechRecognition.ts`) -/

namespace Hook

/-- The mutable state of one hook instance: React state (`isRecording`,
`transcript`) and the refs, plus the log of `onStop` emissions. -/
structure State where
  isRecording : Bool
  transcript : String
  skipOnStop : Bool
  isManualStop : Bool
  lastProcessedIndex : Nat
  finalParts : List String
  emitted : List String
deriving Repr

def initState : State :=
  { isRecording := false, transcript := "", skipOnStop := false,
    isManualStop := false, lastProcessedIndex := 0, finalParts := [],
    emitted := [] }

/-- Loop accumulator of `onresult`: the locally built `finalTranscript`
(desktop), the last interim text, and the parts pushed into
`finalTranscriptPartsRef` during this event (mobile). -/
structure Acc where
  finalStr : String
  interim : String
  newParts : List String

/-- One iteration of the `for (let i = startIndex; ...)` loop. -/
def slotStep (isMobile : Bool) (acc : Acc) (slot : ResultSlot) : Acc :=
  let tc := slotHead slot
  if tc.1 = "" then acc
  else if slot.isFinal then
    match chooseFinal slot tc.1 tc.2 with
    | some x =>
      if isMobile then { acc with newParts := acc.newParts ++ [x] }
      else
        { acc with
          finalStr := acc.finalStr ++ (if acc.finalStr ≠ "" then " " else "") ++ x }
    | none => acc
  else { acc with interim := tc.1 }

/-- `recognition.onresult`: desktop scans every slot from index 0 and
rebuilds `finalTranscript` from scratch; mobile scans only the slots
after `lastProcessedIndexRef`, pushes new final texts into the
persistent parts list and rebuilds the final text as the join of that
list. -/
def processEvent (isMobile : Bool) (st : State) (ev : List ResultSlot) : State :=
  let startIndex := if isMobile then st.lastProcessedIndex else 0
  let acc := (ev.drop startIndex).foldl (slotStep isMobile) ⟨"", "", []⟩
  let parts' := if isMobile then st.finalParts ++ acc.newParts else st.finalParts
  let lastIndex' := if isMobile then ev.length else st.lastProcessedIndex
  let finalStr := if isMobile then joinSp parts' else acc.finalStr
  let full := finalStr ++ (if acc.interim ≠ "" then " " ++ acc.interim else "")
  let processed :=
    if trimS full ≠ "" then
      if acc.interim ≠ "" ∧ finalStr = "" then postProcessTranscript acc.interim
      else if finalStr ≠ "" then postProcessTranscript full
      else trimS full
    else trimS full
  { st with
    transcript := processed
    finalParts := parts'
    lastProcessedIndex := lastIndex' }

/-- `recognition.onstart`. -/
def stepStart (st : State) : State :=
  { st with
    isRecording := true
    transcript := ""
    isManualStop := false
    lastProcessedIndex := 0
    finalParts := [] }

/-- `recognition.onend`: emit iff not skipped, manually stopped, and the
post-processed trimmed transcript is non-empty; then reset. -/
def stepEnd (st : State) : State :=
  let finalT := postProcessTranscript (trimS st.transcript)
  let emitted' :=
    if st.skipOnStop = false ∧ st.isManualStop = true ∧ trimS st.transcript ≠ "" ∧
        0 < finalT.length then
      st.emitted ++ [finalT]
    else st.emitted
  { isRecording := false, transcript := "", skipOnStop := false,
    isManualStop := false, lastProcessedIndex := 0, finalParts := [],
    emitted := emitted' }

/-- `stopRecording`: only marks the manual-stop flag (when a session is
active); the device's `stop()` will later fire `onend`. -/
def stepStop (st : State) : State :=
  if st.isRecording then { st with isManualStop := true } else st

/-- `cancelRecording`: set the skip flag, clear the manual flag, request
termination, and clear all transcript state immediately. -/
def stepCancel (st : State) : State :=
  { st with
    skipOnStop := true
    isManualStop := false
    transcript := ""
    lastProcessedIndex := 0
    finalParts := [] }

/-- External signals driving the hook. -/
inductive Signal where
  | start
  | result (ev : List ResultSlot)
  | ended
  | stop
  | cancel

def step (isMobile : Bool) (st : State) : Signal → State
  | .start => stepStart st
  | .result ev => processEvent isMobile st ev
  | .ended => stepEnd st
  | .stop => stepStop st
  | .cancel => stepCancel st

def run (isMobile : Bool) (st : State) (es : List Signal) : State :=
  es.foldl (step isMobile) st

end Hook

/-! ## The mobile-restart hook variant (`src/unnamed/part_001`) -/

namespace HookM

/-- State of the restart-capable hook variant: same refs as `Hook.State`
plus the platform flag (`isMobileRef`) and a flag recording that the
`onend` handler scheduled the `setTimeout` restart. -/
structure State where
  isMobile : Bool
  isRecording : Bool
  transcript : String
  skipOnStop : Bool
  isManualStop : Bool
  lastProcessedIndex : Nat
  finalParts : List String
  pendingRestart : Bool
  emitted : List String
deriving Repr

def initState (isMobile : Bool) : State :=
  { isMobile := isMobile, isRecording := false, transcript := "",
    skipOnStop := false, isManualStop := false, lastProcessedIndex := 0,
    finalParts := [], pendingRestart := false, emitted := [] }

/-- Loop accumulator of this variant's `onresult`: the last interim text
and `newFinalParts` (collected for every platform). -/
structure Acc where
  interim : String
  newParts : List String

/-- One iteration of the slot loop: identical alternative selection to
the main hook, but the chosen final text is always pushed onto
`newFinalParts`. -/
def slotStep (acc : Acc) (slot : ResultSlot) : Acc :=
  let tc := slotHead slot
  if tc.1 = "" then acc
  else if slot.isFinal then
    match chooseFinal slot tc.1 tc.2 with
    | some x => { acc with newParts := acc.newParts ++ [x] }
    | none => acc
  else { acc with interim := tc.1 }

/-- The desktop rebuild of `finalTranscript`: every final slot's first
alternative, trimmed, joined with single spaces. -/
def desktopFinal (ev : List ResultSlot) : String :=
  ev.foldl
    (fun fs slot =>
      if slot.isFinal then
        let t := (slotHead slot).1
        if t ≠ "" then fs ++ (if fs ≠ "" then " " else "") ++ t else fs
      else fs)
    ""

/-- `recognition.onresult` of the restart variant. -/
def processEvent (st : State) (ev : List ResultSlot) : State :=
  let startIndex := if st.isMobile then st.lastProcessedIndex else 0
  let acc := (ev.drop startIndex).foldl slotStep ⟨"", []⟩
  let lastIndex' := if st.isMobile then ev.length else st.lastProcessedIndex
  let parts' :=
    if st.isMobile ∧ acc.newParts ≠ [] then st.finalParts ++ acc.newParts
    else st.finalParts
  let finalStr := if st.isMobile then joinSp parts' else desktopFinal ev
  let full := finalStr ++ (if acc.interim ≠ "" then " " ++ acc.interim else "")
  let processed :=
    if trimS full ≠ "" then
      if acc.interim ≠ "" ∧ finalStr = "" then postProcessTranscript acc.interim
      else if finalStr ≠ "" then postProcessTranscript full
      else trimS full
    else trimS full
  { st with
    transcript := processed
    finalParts := parts'
    lastProcessedIndex := lastIndex' }

/-- `recognition.onstart` (identical to the main hook: it resets the
transcript, the index cursor and the parts list). -/
def stepStart (st : State) : State :=
  { st with
    isRecording := true
    transcript := ""
    isManualStop := false
    lastProcessedIndex := 0
    finalParts := []
    pendingRestart := false }

/-- `recognition.onend` of the restart variant: emission exactly as in
the main hook; then, if the session auto-stopped (no skip, no manual
stop) on mobile while recording, schedule the restart and return early
WITHOUT clearing any state; otherwise clear. -/
def stepEnd (st : State) : State :=
  let wasRecording := st.isRecording
  let finalT := postProcessTranscript (trimS st.transcript)
  let emitted' :=
    if st.skipOnStop = false ∧ st.isManualStop = true ∧ trimS st.transcript ≠ "" ∧
        0 < finalT.length then
      st.emitted ++ [finalT]
    else st.emitted
  if st.skipOnStop = false ∧ st.isManualStop = false ∧ st.isMobile = true ∧
      wasRecording = true then
    { st with
      isRecording := false
      emitted := emitted'
      pendingRestart := true }
  else
    { st with
      isRecording := false
      emitted := emitted'
      skipOnStop := false
      isManualStop := false
      transcript := ""
      lastProcessedIndex := 0
      finalParts := [] }

/-- The scheduled `setTimeout` callback: `setIsRecording(true)` and
`recognition.start()` (the device will then fire its `start` event,
which runs `onstart`). -/
def stepRestartTimer (st : State) : State :=
  if st.pendingRestart then { st with isRecording := true, pendingRestart := false }
  else st

def stepStop (st : State) : State :=
  if st.isRecording then { st with isManualStop := true } else st

def stepCancel (st : State) : State :=
  { st with
    skipOnStop := true
    isManualStop := false
    transcript := ""
    lastProcessedIndex := 0
    finalParts := [] }

inductive Signal where
  | start
  | result (ev : List ResultSlot)
  | ended
  | restartTimer
  | stop
  | cancel

def step (st : State) : Signal → State
  | .start => stepStart st
  | .result ev => processEvent st ev
  | .ended => stepEnd st
  | .restartTimer => stepRestartTimer st
  | .stop => stepStop st
  | .cancel => stepCancel st

def run (st : State) (es : List Signal) : State := es.foldl step st

end HookM

/-! ## The set-based dedup hook variant (`src/unnamed/part_006`) -/

namespace HookSet

/-- State of the seen-set variant: the accumulated final text, the set
of already committed final texts (order-irrelevant membership), and the
emission log. -/
structure State where
  isRecording : Bool
  transcript : String
  skipOnStop : Bool
  isManualStop : Bool
  accumulatedFinal : String
  seen : List String
  emitted : List String
deriving Repr

def initState : State :=
  { isRecording := false, transcript := "", skipOnStop := false,
    isManualStop := false, accumulatedFinal := "", seen := [], emitted := [] }

/-- One iteration of this variant's `onresult` slot loop: only
`result[0]` is consulted; a final text is kept only if it is neither in
the seen set nor among the parts already collected during this event
(the source adds each kept text to the live set as it goes). -/
def slotStep (seen : List String) (acc : String × List String)
    (slot : ResultSlot) : String × List String :=
  let t := (slotHead slot).1
  if t = "" then acc
  else if slot.isFinal then
    if t ∈ seen ∨ t ∈ acc.2 then acc else (acc.1, acc.2 ++ [t])
  else (t, acc.2)

/-- The whole slot loop: last interim text and newly committed finals. -/
def slotFold (ev : List ResultSlot) (seen : List String) :
    String × List String :=
  ev.foldl (slotStep seen) ("", [])

/-- `recognition.onresult` of the seen-set variant. -/
def processEvent (st : State) (ev : List ResultSlot) : State :=
  let acc := slotFold ev st.seen
  let seen' := st.seen ++ acc.2
  let accFinal' :=
    if acc.2 ≠ [] then
      if st.accumulatedFinal ≠ "" then
        st.accumulatedFinal ++ " " ++ joinSp acc.2
      else joinSp acc.2
    else st.accumulatedFinal
  let display := accFinal' ++ (if acc.1 ≠ "" then " " ++ acc.1 else "")
  let processed :=
    if trimS display ≠ "" then postProcessTranscript (trimS display)
    else trimS display
  { st with
    transcript := processed
    seen := seen'
    accumulatedFinal := accFinal' }

def stepStart (st : State) : State :=
  { st with
    isRecording := true
    transcript := ""
    isManualStop := false
    accumulatedFinal := ""
    seen := [] }

/-- `recognition.onend`: the emitted text prefers the accumulated final
text over the displayed transcript; the displayed transcript is NOT
cleared by this variant. -/
def stepEnd (st : State) : State :=
  let finalText :=
    if trimS st.accumulatedFinal ≠ "" then trimS st.accumulatedFinal
    else trimS st.transcript
  let finalT := postProcessTranscript finalText
  let emitted' :=
    if st.skipOnStop = false ∧ st.isManualStop = true ∧ trimS st.transcript ≠ "" ∧
        finalText ≠ "" ∧ 0 < finalT.length then
      st.emitted ++ [finalT]
    else st.emitted
  { st with
    isRecording := false
    emitted := emitted'
    skipOnStop := false
    isManualStop := false
    accumulatedFinal := ""
    seen := [] }

def stepStop (st : State) : State :=
  if st.isRecording then { st with isManualStop := true } else st

def stepCancel (st : State) : State :=
  { st with
    skipOnStop := true
    isManualStop := false
    transcript := ""
    accumulatedFinal := ""
    seen := [] }

end HookSet

/-! ## Helper lemmas -/

theorem HookSet.foldSlot_mono (seen : List String) (ev : List ResultSlot) :
    ∀ (acc : String × List String) (t : String), t ∈ acc.2 →
      t ∈ (ev.foldl (HookSet.slotStep seen) acc).2 := by
  induction ev with
  | nil => intro acc t ht; simpa using ht
  | cons a ev ih =>
    intro acc t ht
    apply ih
    unfold HookSet.slotStep
    by_cases h1 : (slotHead a).1 = "" <;> simp [h1]
    · exact ht
    · by_cases h2 : a.isFinal <;> simp [h2]
      · by_cases h3 : (slotHead a).1 ∈ seen ∨ (slotHead a).1 ∈ acc.2 <;> simp [h3]
        · exact ht
        · exact Or.inl ht
      · exact ht

theorem HookSet.slotStep_mem (seen : List String) (acc : String × List String)
    (slot : ResultSlot) (hf : slot.isFinal = true) (hne : (slotHead slot).1 ≠ "")
    (hns : (slotHead slot).1 ∉ seen) :
    (slotHead slot).1 ∈ (HookSet.slotStep seen acc slot).2 := by
  unfold HookSet.slotStep
  by_cases h4 : (slotHead slot).1 ∈ acc.2
  · simp [hne, hf, h4]
  · simp [hne, hf, hns, h4]

theorem HookSet.foldSlot_covers (seen : List String) (ev : List ResultSlot) :
    ∀ (acc : String × List String) (slot : ResultSlot), slot ∈ ev →
      slot.isFinal = true → (slotHead slot).1 ≠ "" →
      (slotHead slot).1 ∈ seen ∨
        (slotHead slot).1 ∈ (ev.foldl (HookSet.slotStep seen) acc).2 := by
  induction ev with
  | nil => intro acc slot h; cases h
  | cons a ev ih =>
    intro acc slot hmem hf hne
    rcases List.mem_cons.mp hmem with rfl | htail
    · by_cases h3 : (slotHead slot).1 ∈ seen
      · exact Or.inl h3
      · exact Or.inr (HookSet.foldSlot_mono seen ev _ _
          (HookSet.slotStep_mem seen acc slot hf hne h3))
    · exact ih (HookSet.slotStep seen acc a) slot htail hf hne

theorem HookSet.foldSlot_no_new (seen : List String) (ev : List ResultSlot)
    (hall : ∀ slot ∈ ev, slot.isFinal = true → (slotHead slot).1 ≠ "" →
      (slotHead slot).1 ∈ seen) :
    ∀ (i : String), (ev.foldl (HookSet.slotStep seen) (i, [])).2 = [] := by
  induction ev with
  | nil => intro i; rfl
  | cons a ev ih =>
    have htail : ∀ slot ∈ ev, slot.isFinal = true → (slotHead slot).1 ≠ "" →
        (slotHead slot).1 ∈ seen := fun s hs => hall s (List.mem_cons_of_mem a hs)
    have ih2 := ih htail
    intro i
    rw [List.foldl_cons]
    by_cases h1 : (slotHead a).1 = ""
    · have hstep : HookSet.slotStep seen (i, []) a = (i, []) := by
        simp [HookSet.slotStep, h1]
      rw [hstep]; exact ih2 i
    · by_cases h2 : a.isFinal
      · have hseen : (slotHead a).1 ∈ seen :=
          hall a (List.mem_cons_self a ev) h2 h1
        have hstep : HookSet.slotStep seen (i, []) a = (i, []) := by
          simp [HookSet.slotStep, h1, h2, hseen]
        rw [hstep]; exact ih2 i
      · have hstep : HookSet.slotStep seen (i, []) a = ((slotHead a).1, []) := by
          simp [HookSet.slotStep, h1, h2]
        rw [hstep]; exact ih2 _

theorem HookSet.processEvent_accum_no_new (st : HookSet.State)
    (ev : List ResultSlot) (h : (HookSet.slotFold ev st.seen).2 = []) :
    (HookSet.processEvent st ev).accumulatedFinal = st.accumulatedFinal := by
  unfold HookSet.processEvent
  simp [h]

theorem HookSet.processEvent_replay (st : HookSet.State) (ev : List ResultSlot) :
    (HookSet.processEvent (HookSet.processEvent st ev) ev).accumulatedFinal =
      (HookSet.processEvent st ev).accumulatedFinal := by
  have hseen : (HookSet.processEvent st ev).seen =
      st.seen ++ (HookSet.slotFold ev st.seen).2 := rfl
  apply HookSet.processEvent_accum_no_new
  show (List.foldl (HookSet.slotStep ((HookSet.processEvent st ev).seen))
    ("", []) ev).2 = []
  apply HookSet.foldSlot_no_new
  intro slot hs hf hne
  rw [hseen]
  rcases HookSet.foldSlot_covers st.seen ev ("", []) slot hs hf hne with h | h
  · exact List.mem_append_left _ h
  · exact List.mem_append_right _ h

theorem Hook.step_inert_keeps (isMobile : Bool) (st : Hook.State)
    (e : Hook.Signal) (hs : e ≠ Hook.Signal.start) (he : e ≠ Hook.Signal.ended)
    (hskip : st.skipOnStop = true) :
    (Hook.step isMobile st e).skipOnStop = true ∧
    (Hook.step isMobile st e).emitted = st.emitted := by
  cases e with
  | start => exact absurd rfl hs
  | ended => exact absurd rfl he
  | result ev => exact ⟨hskip, rfl⟩
  | stop =>
    constructor <;> · simp only [Hook.step, Hook.stepStop]; split <;> simp [hskip]
  | cancel => exact ⟨rfl, rfl⟩

theorem Hook.run_inert_keeps (isMobile : Bool) (sigs : List Hook.Signal)
    (hsig : ∀ e ∈ sigs, e ≠ Hook.Signal.start ∧ e ≠ Hook.Signal.ended) :
    ∀ (st : Hook.State), st.skipOnStop = true →
      (Hook.run isMobile st sigs).skipOnStop = true ∧
      (Hook.run isMobile st sigs).emitted = st.emitted := by
  induction sigs with
  | nil => intro st h; exact ⟨h, rfl⟩
  | cons e sigs ih =>
    intro st h
    have he := hsig e (List.mem_cons_self e sigs)
    have hstep := Hook.step_inert_keeps isMobile st e he.1 he.2 h
    have htail : ∀ s ∈ sigs, s ≠ Hook.Signal.start ∧ s ≠ Hook.Signal.ended :=
      fun s hs => hsig s (List.mem_cons_of_mem e hs)
    have htl := ih htail (Hook.step isMobile st e) hstep.1
    exact ⟨htl.1, htl.2.trans hstep.2⟩

theorem replaceWBAux_no_match (pat repl : List Char) :
    ∀ (fuel : Nat) (prevW : Bool) (s : List Char),
      hasMatchAux pat prevW s = false → replaceWBAux pat repl fuel prevW s = s := by
  intro fuel
  induction fuel with
  | zero => intro prevW s h; rfl
  | succ fuel ih =>
    intro prevW s h
    cases s with
    | nil => rfl
    | cons c cs =>
      unfold hasMatchAux at h
      rw [Bool.or_eq_false_iff] at h
      unfold replaceWBAux
      rw [if_neg (by simp [h.1])]
      rw [ih (isWordChar c) cs h.2]

/-! ## Claim theorems -/

/-- C1: replaying the identical final-slot text in a second event leaves
the accumulated transcript identical to a single delivery. Mobile
(index-cursor): re-processing the same results snapshot adds nothing to
the committed fragment list, for every state and event. Desktop
(full-replay): the displayed transcript is a function of the current
event alone (and the event never touches the fragment list), so a
replayed event reproduces the single-delivery transcript. Seen-set
variant: re-processing any event leaves the accumulated final text
unchanged. Concretely, the final slot "hash map" delivered in two
separate events yields the fragment list ["hash map"] — the text
appears exactly once — and the displayed transcript "Hash map", the same
as one delivery, under all three strategies. -/
theorem dedup_replay_invariant :
    (∀ (st : Hook.State) (ev : List ResultSlot),
      (Hook.processEvent true (Hook.processEvent true st ev) ev).finalParts =
        (Hook.processEvent true st ev).finalParts) ∧
    (∀ (st st' : Hook.State) (ev : List ResultSlot),
      (Hook.processEvent false st ev).transcript =
        (Hook.processEvent false st' ev).transcript ∧
      (Hook.processEvent false st ev).finalParts = st.finalParts) ∧
    (∀ (st : HookSet.State) (ev : List ResultSlot),
      (HookSet.processEvent (HookSet.processEvent st ev) ev).accumulatedFinal =
        (HookSet.processEvent st ev).accumulatedFinal) ∧
    ((Hook.processEvent true (Hook.processEvent true Hook.initState
        [⟨true, [⟨"hash map", mkRat 9 10⟩]⟩]) [⟨true, [⟨"hash map", mkRat 9 10⟩]⟩]).finalParts
        = ["hash map"] ∧
     (Hook.processEvent true Hook.initState
        [⟨true, [⟨"hash map", mkRat 9 10⟩]⟩]).finalParts = ["hash map"] ∧
     (Hook.processEvent true (Hook.processEvent true Hook.initState
        [⟨true, [⟨"hash map", mkRat 9 10⟩]⟩]) [⟨true, [⟨"hash map", mkRat 9 10⟩]⟩]).transcript
        = "Hash map" ∧
     (Hook.processEvent false (Hook.processEvent false Hook.initState
        [⟨true, [⟨"hash map", mkRat 9 10⟩]⟩]) [⟨true, [⟨"hash map", mkRat 9 10⟩]⟩]).transcript
        = "Hash map" ∧
     (HookSet.processEvent (HookSet.processEvent HookSet.initState
        [⟨true, [⟨"hash map", mkRat 9 10⟩]⟩]) [⟨true, [⟨"hash map", mkRat 9 10⟩]⟩]).accumulatedFinal
        = "hash map") := by
  refine ⟨?_, ?_, ?_, ?_⟩
  · intro st ev
    simp [Hook.processEvent, List.drop_length]
  · intro st st' ev
    exact ⟨rfl, rfl⟩
  · intro st ev
    exact HookSet.processEvent_replay st ev
  · exact ⟨by decide, by decide, by decide, by decide, by decide⟩

/-- C2: with a backend failing twice with HTTP 429 and succeeding on the
third request, generateAnswerStream performs exactly 3 attempts, sleeps
1000 ms (initialDelayMs * 2^0) before attempt 2 and 2000 ms
(initialDelayMs * 2^1) before attempt 3, and resolves with the chunks of
the successful attempt. -/
theorem retry_backoff_three_attempts (chunks : List String) (m : Option String) :
    generateAnswerStream
      (fun n => if n < 2 then .err (some 429) m else .ok chunks)
      none (some "ENV-KEY") =
      ⟨3, [1000, 2000], .ok chunks⟩ := rfl

/-- C3 counterexample: the correction pass is not idempotent. On input
"node" one application yields "Node.js", but the second application
lowercases it to "node.js", where the node rule matches the word before
the dot again and produces "Node.js.js". -/
theorem correct_idempotence_counterexample :
    correctTechnicalTerms "node" = "Node.js" ∧
    correctTechnicalTerms (correctTechnicalTerms "node") = "Node.js.js" ∧
    correctTechnicalTerms (correctTechnicalTerms "node") ≠
      correctTechnicalTerms "node" :=
  ⟨by decide, by decide, by decide⟩

/-- C3 amended: idempotence does hold on the stabilised domain strings
(whose corrected forms contain no replacement token that re-triggers a
rule after lowercasing, unlike "node" -> "Node.js"). -/
theorem correct_idempotent_on_domain_strings (s : String)
    (h : s ∈ ["explain hash map", "what is a linked list",
      "explain int and care datatype", "difference between stack and queue",
      "explain quick sort algorithm"]) :
    correctTechnicalTerms (correctTechnicalTerms s) = correctTechnicalTerms s := by
  simp only [List.mem_cons, List.not_mem_nil, or_false] at h
  rcases h with rfl | rfl | rfl | rfl | rfl <;> decide

theorem correct_idempotent_on_domain_strings_witness :
    "explain hash map" ∈ ["explain hash map", "what is a linked list",
      "explain int and care datatype", "difference between stack and queue",
      "explain quick sort algorithm"] ∧
    correctTechnicalTerms (correctTechnicalTerms "explain hash map") =
      correctTechnicalTerms "explain hash map" :=
  ⟨by decide, correct_idempotent_on_domain_strings "explain hash map" (by decide)⟩

/-- C4 counterexample: on mobile, a session [start; final result "hello";
auto end] emits nothing and the end handler leaves the fragment list
["hello"] in place while scheduling the restart — but once the scheduled
timer fires and the restarted recognition delivers its start event, the
start handler resets the transcript and the fragment list, so the
accumulated state is NOT preserved across the completed restart. -/
theorem mobile_restart_counterexample :
    (HookM.run (HookM.initState true)
      [.start, .result [⟨true, [⟨"hello", mkRat 9 10⟩]⟩], .ended]).finalParts
      = ["hello"] ∧
    (HookM.run (HookM.initState true)
      [.start, .result [⟨true, [⟨"hello", mkRat 9 10⟩]⟩], .ended]).pendingRestart
      = true ∧
    (HookM.run (HookM.initState true)
      [.start, .result [⟨true, [⟨"hello", mkRat 9 10⟩]⟩], .ended]).emitted = [] ∧
    (HookM.run (HookM.initState true)
      [.start, .result [⟨true, [⟨"hello", mkRat 9 10⟩]⟩], .ended,
        .restartTimer, .start]).finalParts = [] ∧
    (HookM.run (HookM.initState true)
      [.start, .result [⟨true, [⟨"hello", mkRat 9 10⟩]⟩], .ended,
        .restartTimer, .start]).transcript = "" :=
  ⟨by decide, by decide, by decide, by decide, by decide⟩

/-- C4 amended: when a session auto-ends (no skip, no manual stop) on a
mobile-class platform while recording, the end handler emits nothing,
schedules a transparent restart, and leaves transcript, fragment list
and index cursor untouched at that point; the restarted session's start
event, however, then resets the transcript and the fragment state, so
accumulation survives only until the restart's start event, not across
it. -/
theorem mobile_auto_end_restart_behaviour (st : HookM.State)
    (h1 : st.isMobile = true) (h2 : st.isRecording = true)
    (h3 : st.skipOnStop = false) (h4 : st.isManualStop = false) :
    (HookM.stepEnd st).emitted = st.emitted ∧
    (HookM.stepEnd st).finalParts = st.finalParts ∧
    (HookM.stepEnd st).transcript = st.transcript ∧
    (HookM.stepEnd st).lastProcessedIndex = st.lastProcessedIndex ∧
    (HookM.stepEnd st).pendingRestart = true ∧
    (HookM.stepStart (HookM.stepRestartTimer (HookM.stepEnd st))).finalParts = [] ∧
    (HookM.stepStart (HookM.stepRestartTimer (HookM.stepEnd st))).transcript = "" := by
  simp [HookM.stepEnd, HookM.stepStart, HookM.stepRestartTimer, h1, h2, h3, h4]

theorem mobile_auto_end_restart_behaviour_witness :
    (HookM.run (HookM.initState true)
      [.start, .result [⟨true, [⟨"hello", mkRat 9 10⟩]⟩]]).isMobile = true ∧
    (HookM.stepEnd (HookM.run (HookM.initState true)
      [.start, .result [⟨true, [⟨"hello", mkRat 9 10⟩]⟩]])).finalParts =
      (HookM.run (HookM.initState true)
        [.start, .result [⟨true, [⟨"hello", mkRat 9 10⟩]⟩]]).finalParts :=
  ⟨by decide,
    (mobile_auto_end_restart_behaviour
      (HookM.run (HookM.initState true)
        [.start, .result [⟨true, [⟨"hello", mkRat 9 10⟩]⟩]])
      (by decide) (by decide) (by decide) (by decide)).2.1⟩

/-- C5 counterexample: with provider gemini, no caller key, and an
environment default key PRESENT, the router still rejects immediately
with "Please provide a Gemini API key." — it never falls back to the
default key, contradicting the claim that default/gemini fall back and
fail only when neither key is present. -/
theorem provider_gemini_no_fallback_counterexample :
    generateAnswerWithProvider (some "gemini") none (some "env-default-key")
      (fun _ => .ok ["answer"]) ⟨true, "", some "answer"⟩ =
      .immediateError "Please provide a Gemini API key." := rfl

/-- C5 amended: openai and claude with no caller key reject immediately
with the message naming the required key and perform no network request
(as the claim states); the gemini arm requires a caller key and rejects
immediately when it is absent, regardless of the default key; the
default arm ignores any caller key, always uses the environment default
key, and produces the configuration error (with zero attempts) exactly
when that default key is absent. -/
theorem provider_routing_key_handling :
    (∀ (dk : Option String) (b : Nat → AttemptOutcome) (r : HttpResp),
      generateAnswerWithProvider (some "openai") none dk b r =
        .httpCall (.error "Please provide an OpenAI API key.") false) ∧
    (∀ (dk : Option String) (b : Nat → AttemptOutcome) (r : HttpResp),
      generateAnswerWithProvider (some "claude") none dk b r =
        .httpCall (.error "Please provide an Anthropic (Claude) API key.") false) ∧
    (∀ (dk : Option String) (b : Nat → AttemptOutcome) (r : HttpResp),
      generateAnswerWithProvider (some "gemini") none dk b r =
        .immediateError "Please provide a Gemini API key.") ∧
    (∀ (ck : Option String) (b : Nat → AttemptOutcome) (r : HttpResp),
      generateAnswerWithProvider (some "default") ck none b r =
        .geminiCall ⟨0, [],
          .error "Gemini API key not configured. Please provide a valid key."⟩) ∧
    (∀ (ck dk : Option String) (b : Nat → AttemptOutcome) (r : HttpResp),
      generateAnswerWithProvider (some "default") ck dk b r =
        .geminiCall (generateAnswerStream b none dk)) :=
  ⟨fun _ _ _ => rfl, fun _ _ _ => rfl, fun _ _ _ => rfl,
    fun ck _ _ => by cases ck <;> rfl, fun _ _ _ _ => rfl⟩

/-- C6 counterexample: a backend failing with 429 on every attempt
exhausts all 3 attempts, and the call rejects with the status-specific
rate-limit message, not the generic "failed after multiple attempts"
error the claim expects. -/
theorem retry_exhaustion_counterexample :
    generateAnswerStream (fun _ => .err (some 429) (some "quota")) none
      (some "k") = ⟨3, [1000, 2000], .error rateLimitMsg⟩ ∧
    rateLimitMsg ≠ genericFailMsg :=
  ⟨rfl, by decide⟩

/-- C6 amended: when every attempt fails with the same retryable status,
the third (last) failure takes the terminal branch, so the call makes 3
attempts, sleeps 1000 then 2000 ms, and rejects with the status-specific
message — the rate-limit message for 429, the overload message for 503;
the generic "failed after multiple attempts" message is not produced on
this path. -/
theorem retry_exhaustion_status_specific (m : Option String) :
    generateAnswerStream (fun _ => .err (some 429) m) none (some "k") =
      ⟨3, [1000, 2000], .error rateLimitMsg⟩ ∧
    generateAnswerStream (fun _ => .err (some 503) m) none (some "k") =
      ⟨3, [1000, 2000], .error overloadedMsg⟩ :=
  ⟨rfl, rfl⟩

/-- C7 counterexample: the input "i care" contains the homophone care,
and the code's own context predicate does not hold for it (as computed
on the lowercased trimmed text), yet correctTechnicalTerms rewrites it
to "I char": the homophone entries of TECHNICAL_CORRECTIONS fire in the
unconditional first pass, before the context gate is consulted. -/
theorem homophone_context_counterexample :
    hasTechnicalContext (trimL (toLowerL "i care".data)) = false ∧
    hasHomophone (trimL (toLowerL "i care".data)) = true ∧
    correctTechnicalTerms "i care" = "I char" :=
  ⟨by decide, by decide, by decide⟩

/-- C7 amended: care, chair and chore are unconditional entries of
TECHNICAL_CORRECTIONS mapping to char, so the enumeration pass rewrites
them in every input, context or not; the context-gated second pass never
sees them. In particular an ordinary-language sentence with no
domain-indicator word is still rewritten. -/
theorem homophone_unconditional_rewrite (w : String)
    (h : w ∈ ["care", "chair", "chore"]) :
    (w, "char") ∈ TECHNICAL_CORRECTIONS ∧
    correctTechnicalTerms ("i " ++ w) = "I char" := by
  simp only [List.mem_cons, List.not_mem_nil, or_false] at h
  rcases h with rfl | rfl | rfl <;> exact ⟨by decide, by decide⟩

theorem homophone_unconditional_rewrite_witness :
    "care" ∈ ["care", "chair", "chore"] ∧
    correctTechnicalTerms ("i " ++ "care") = "I char" :=
  ⟨by decide, (homophone_unconditional_rewrite "care" (by decide)).2⟩

/-- C8: every substitution of the correction table is applied through
the word-bounded scanner, so whenever a correction target has no
word-bounded occurrence in a subject (in particular when it occurs only
as a proper substring of a longer word), that substitution leaves the
subject completely unchanged; and on the concrete input
"the carpet is red" (which contains car only inside carpet) the whole
correction pass changes nothing but the leading capital. -/
theorem word_boundary_safety (wrong repl : String)
    (_hmem : (wrong, repl) ∈ TECHNICAL_CORRECTIONS) (s : List Char)
    (hno : testWB wrong.data s = false) :
    replaceWB wrong.data repl.data s = s ∧
    correctTechnicalTerms "the carpet is red" = "The carpet is red" :=
  ⟨replaceWBAux_no_match wrong.data repl.data s.length false s hno, by decide⟩

theorem word_boundary_safety_witness :
    ("car", "char") ∈ TECHNICAL_CORRECTIONS ∧
    testWB "car".data "carpet".data = false ∧
    replaceWB "car".data "char".data "carpet".data = "carpet".data :=
  ⟨by decide, by decide,
    (word_boundary_safety "car" "char" (by decide) "carpet".data (by decide)).1⟩

/-- C9 counterexample: cancelRecording clears the displayed transcript,
but a recognition result delivered after the cancellation (before the
session's end event) is still processed and sets the displayed
transcript to a non-empty string — pending event processing is not
inert. -/
theorem cancel_inertness_counterexample :
    (Hook.stepCancel Hook.initState).transcript = "" ∧
    (Hook.step false (Hook.stepCancel Hook.initState)
      (.result [⟨true, [⟨"hi", mkRat 9 10⟩]⟩])).transcript = "Hi" ∧
    "Hi" ≠ ("" : String) :=
  ⟨by decide, by decide, by decide⟩

/-- C9 amended: cancelRecording immediately clears the displayed
transcript, the fragment list and the index cursor, and after a
cancellation no transcript is ever emitted for that session: whatever
result/stop/cancel signals follow (any end reason, manual stop
included), the skip flag stays set, so the session's end event emits
nothing and clears all transcript state again; however a result event
between the cancellation and the end does update the displayed
transcript (see the counterexample), which is only reset at session
end. -/
theorem cancel_suppression_and_clearing (isMobile : Bool) (st : Hook.State)
    (sigs : List Hook.Signal)
    (hsig : ∀ e ∈ sigs, e ≠ Hook.Signal.start ∧ e ≠ Hook.Signal.ended) :
    (Hook.stepCancel st).transcript = "" ∧
    (Hook.stepCancel st).finalParts = [] ∧
    (Hook.stepCancel st).lastProcessedIndex = 0 ∧
    (Hook.run isMobile (Hook.stepCancel st) sigs).emitted = st.emitted ∧
    (Hook.stepEnd (Hook.run isMobile (Hook.stepCancel st) sigs)).emitted =
      st.emitted ∧
    (Hook.stepEnd (Hook.run isMobile (Hook.stepCancel st) sigs)).transcript = "" ∧
    (Hook.stepEnd (Hook.run isMobile (Hook.stepCancel st) sigs)).finalParts = [] ∧
    (Hook.stepEnd (Hook.run isMobile (Hook.stepCancel st) sigs)).lastProcessedIndex
      = 0 := by
  have hc : (Hook.stepCancel st).skipOnStop = true := rfl
  have hr := Hook.run_inert_keeps isMobile sigs hsig (Hook.stepCancel st) hc
  have hE : (Hook.stepCancel st).emitted = st.emitted := rfl
  refine ⟨rfl, rfl, rfl, hr.2.trans hE, ?_, rfl, rfl, rfl⟩
  simp [Hook.stepEnd, hr.1, hr.2.trans hE]

theorem cancel_suppression_and_clearing_witness :
    (∀ e ∈ ([.result [⟨true, [⟨"hi", mkRat 9 10⟩]⟩], .stop] :
        List Hook.Signal), e ≠ Hook.Signal.start ∧ e ≠ Hook.Signal.ended) ∧
    (Hook.stepEnd (Hook.run false (Hook.stepCancel Hook.initState)
      [.result [⟨true, [⟨"hi", mkRat 9 10⟩]⟩], .stop])).emitted = [] :=
  ⟨by intro e he; fin_cases he <;> exact ⟨by simp, by simp⟩,
    (cancel_suppression_and_clearing false Hook.initState
      [.result [⟨true, [⟨"hi", mkRat 9 10⟩]⟩], .stop]
      (by intro e he; fin_cases he <;> exact ⟨by simp, by simp⟩)).2.2.2.2.1⟩

/-- C10: for the non-streaming OpenAI and Claude backends called with a
key, an OK HTTP response with a present, non-empty content field makes
the chunk callback fire exactly once with that field and the call
resolve; an OK response whose content field is absent or empty makes the
call reject with the backend's "empty response" error and the callback
never fire (the chunk list is empty on rejection). -/
theorem http_backend_single_chunk (k : String) (resp : HttpResp) (c : String) :
    (resp.ok = true → resp.content = some c → c ≠ "" →
      generateOpenAIAnswer (some k) resp = (.ok [c], true) ∧
      generateClaudeAnswer (some k) resp = (.ok [c], true)) ∧
    (resp.ok = true → (resp.content = none ∨ resp.content = some "") →
      generateOpenAIAnswer (some k) resp =
        (.error "OpenAI returned an empty response.", true) ∧
      generateClaudeAnswer (some k) resp =
        (.error "Claude returned an empty response.", true)) := by
  obtain ⟨ok, et, ct⟩ := resp
  constructor
  · intro h1 h2 h3
    simp only at h1 h2
    subst h1; subst h2
    constructor <;>
      simp [generateOpenAIAnswer, generateClaudeAnswer, truthyContent, h3]
  · intro h1 h2
    simp only at h1 h2
    subst h1
    rcases h2 with h2 | h2 <;> subst h2 <;> constructor <;>
      simp [generateOpenAIAnswer, generateClaudeAnswer, truthyContent]

theorem http_backend_single_chunk_witness :
    generateOpenAIAnswer (some "sk-test") ⟨true, "", some "hello"⟩ =
      (.ok ["hello"], true) ∧
    generateClaudeAnswer (some "sk-test") ⟨true, "", some ""⟩ =
      (.error "Claude returned an empty response.", true) :=
  ⟨((http_backend_single_chunk "sk-test" ⟨true, "", some "hello"⟩ "hello").1
      rfl rfl (by decide)).1,
    ((http_backend_single_chunk "sk-test" ⟨true, "", some ""⟩ "x").2
      rfl (Or.inr rfl)).2⟩
